import Mathlib

/-!
Verification of the `asgi_rabbitmq` channel-layer core (`asgi_rabbitmq/core.py`).

The development shallowly embeds the data model and the operations of the
`AMQP` class and the `RabbitmqChannelLayer` facade: pure fragments become Lean
functions, the callback-driven broker interaction of `group_add` becomes an
explicit event-driven execution over a deep embedding of the issued operations,
and broker/queue state becomes explicit association lists.
-/

set_option autoImplicit false

namespace AsgiRabbitmq

/-! ### Codec

Modelled from the spec: the repository serializes messages with the external
`msgpack` library (`msgpack.packb(message, use_bin_type=True)` and
`msgpack.unpackb(message, encoding='utf8')`), whose implementation is not part
of the repository sources.  Following the spec's words, the codec below is a
self-describing binary encoding of messages (mappings of text keys to values)
that distinguishes text from binary payloads on the wire, so that decoding
produces text where the encoder marked text and bytes where it marked bytes. -/

/-- Supported message values: nothing, booleans, integers, text, binary
payloads, arrays and text-keyed mappings. -/
inductive Value where
  | nil : Value
  | bool (b : Bool) : Value
  | int (n : Int) : Value
  | str (s : String) : Value
  | bin (bytes : List Nat) : Value
  | arr (xs : List Value) : Value
  | map (kvs : List (String × Value)) : Value

/-- Variable-length encoding of a natural number: 7 payload bits per byte,
high bit set on every byte except the last.  The fuel argument bounds the
recursion; `fuel = n` always suffices. -/
def encVarNatAux : Nat → Nat → List Nat
  | 0, n => [n % 128]
  | fuel + 1, n => if n < 128 then [n] else (n % 128 + 128) :: encVarNatAux fuel (n / 128)

/-- Variable-length encoding of a natural number. -/
def encVarNat (n : Nat) : List Nat :=
  encVarNatAux n n

/-- Decoder for `encVarNat`; returns the number and the unread rest. -/
def decVarNat : List Nat → Option (Nat × List Nat)
  | [] => none
  | b :: rest =>
    if b < 128 then some (b, rest)
    else
      match decVarNat rest with
      | some (m, r) => some (b - 128 + 128 * m, r)
      | none => none

theorem decVarNat_encVarNatAux (fuel : Nat) :
    ∀ n rest, n ≤ fuel → decVarNat (encVarNatAux fuel n ++ rest) = some (n, rest) := by
  induction fuel with
  | zero =>
    intro n rest h
    interval_cases n
    simp [encVarNatAux, decVarNat]
  | succ k ih =>
    intro n rest h
    by_cases hn : n < 128
    · simp [encVarNatAux, hn, decVarNat]
    · have hdiv : n / 128 ≤ k := by
        have : n / 128 < n := Nat.div_lt_self (by omega) (by omega)
        omega
      simp only [encVarNatAux, if_neg hn, List.cons_append]
      rw [decVarNat, if_neg (by omega), ih (n / 128) rest hdiv]
      exact congrArg (fun k => some (k, rest))
        (by omega : n % 128 + 128 - 128 + 128 * (n / 128) = n)

theorem decVarNat_encVarNat (n : Nat) (rest : List Nat) :
    decVarNat (encVarNat n ++ rest) = some (n, rest) :=
  decVarNat_encVarNatAux n n rest (Nat.le_refl n)

/-- Encoding of a list of character codepoints. -/
def encChars : List Char → List Nat
  | [] => []
  | c :: cs => encVarNat c.toNat ++ encChars cs

/-- Decoder reading back `count` characters. -/
def decChars : Nat → List Nat → Option (List Char × List Nat)
  | 0, r => some ([], r)
  | count + 1, r =>
    match decVarNat r with
    | some (m, r1) =>
      match decChars count r1 with
      | some (cs, r2) => some (Char.ofNat m :: cs, r2)
      | none => none
    | none => none

theorem decChars_encChars (cs : List Char) :
    ∀ rest, decChars cs.length (encChars cs ++ rest) = some (cs, rest) := by
  induction cs with
  | nil => intro rest; simp [encChars, decChars]
  | cons c cs ih =>
    intro rest
    simp only [encChars, List.length_cons, List.append_assoc]
    rw [decChars, decVarNat_encVarNat]
    simp [ih rest, Char.ofNat_toNat]

/-- Encoding of a list of raw bytes of a binary payload. -/
def encNats : List Nat → List Nat
  | [] => []
  | b :: bs => encVarNat b ++ encNats bs

/-- Decoder reading back `count` raw bytes. -/
def decNats : Nat → List Nat → Option (List Nat × List Nat)
  | 0, r => some ([], r)
  | count + 1, r =>
    match decVarNat r with
    | some (m, r1) =>
      match decNats count r1 with
      | some (bs, r2) => some (m :: bs, r2)
      | none => none
    | none => none

theorem decNats_encNats (bs : List Nat) :
    ∀ rest, decNats bs.length (encNats bs ++ rest) = some (bs, rest) := by
  induction bs with
  | nil => intro rest; simp [encNats, decNats]
  | cons b bs ih =>
    intro rest
    simp only [encNats, List.length_cons, List.append_assoc]
    rw [decNats, decVarNat_encVarNat]
    simp [ih rest]

/-- Sign-and-magnitude encoding of an integer. -/
def encInt (n : Int) : List Nat :=
  if 0 ≤ n then 0 :: encVarNat n.toNat else 1 :: encVarNat (-n).toNat

/-- Decoder for `encInt`. -/
def decInt : List Nat → Option (Int × List Nat)
  | 0 :: r =>
    match decVarNat r with
    | some (m, r1) => some ((m : Int), r1)
    | none => none
  | 1 :: r =>
    match decVarNat r with
    | some (m, r1) => some (-(m : Int), r1)
    | none => none
  | _ => none

theorem decInt_encInt (n : Int) (rest : List Nat) :
    decInt (encInt n ++ rest) = some (n, rest) := by
  by_cases h : 0 ≤ n
  · simp only [encInt, if_pos h, List.cons_append]
    rw [decInt, decVarNat_encVarNat]
    simp [Int.toNat_of_nonneg h]
  · simp only [encInt, if_neg h, List.cons_append]
    rw [decInt, decVarNat_encVarNat]
    have : ((-n).toNat : Int) = -n := Int.toNat_of_nonneg (by omega)
    simp [this]

mutual

/-- Wire encoding of one value: a tag byte followed by the payload; text and
binary payloads carry distinct tags (4 vs 5), with a length prefix. -/
def encodeVal : Value → List Nat
  | .nil => [0]
  | .bool false => [1]
  | .bool true => [2]
  | .int n => 3 :: encInt n
  | .str s => 4 :: (encVarNat s.length ++ encChars s.data)
  | .bin bytes => 5 :: (encVarNat bytes.length ++ encNats bytes)
  | .arr xs => 6 :: (encVarNat xs.length ++ encodeVals xs)
  | .map kvs => 7 :: (encVarNat kvs.length ++ encodeKVs kvs)

/-- Wire encoding of the elements of an array, in order. -/
def encodeVals : List Value → List Nat
  | [] => []
  | v :: vs => encodeVal v ++ encodeVals vs

/-- Wire encoding of the entries of a text-keyed mapping, in order. -/
def encodeKVs : List (String × Value) → List Nat
  | [] => []
  | (k, v) :: kvs => encVarNat k.length ++ encChars k.data ++ encodeVal v ++ encodeKVs kvs

end

mutual

/-- Decoder for `encodeVal`.  The fuel argument strictly decreases on every
recursive call; `decodeBudget` of the value always suffices. -/
def decodeVal : Nat → List Nat → Option (Value × List Nat)
  | 0, _ => none
  | _ + 1, [] => none
  | fuel + 1, t :: r =>
    if t = 0 then some (.nil, r)
    else if t = 1 then some (.bool false, r)
    else if t = 2 then some (.bool true, r)
    else if t = 3 then
      match decInt r with
      | some (n, r1) => some (.int n, r1)
      | none => none
    else if t = 4 then
      match decVarNat r with
      | some (n, r1) =>
        match decChars n r1 with
        | some (cs, r2) => some (.str (String.mk cs), r2)
        | none => none
      | none => none
    else if t = 5 then
      match decVarNat r with
      | some (n, r1) =>
        match decNats n r1 with
        | some (bs, r2) => some (.bin bs, r2)
        | none => none
      | none => none
    else if t = 6 then
      match decVarNat r with
      | some (n, r1) =>
        match decodeVals fuel n r1 with
        | some (vs, r2) => some (.arr vs, r2)
        | none => none
      | none => none
    else if t = 7 then
      match decVarNat r with
      | some (n, r1) =>
        match decodeKVs fuel n r1 with
        | some (kvs, r2) => some (.map kvs, r2)
        | none => none
      | none => none
    else none

/-- Decoder reading back `count` array elements. -/
def decodeVals : Nat → Nat → List Nat → Option (List Value × List Nat)
  | 0, _, _ => none
  | _ + 1, 0, r => some ([], r)
  | fuel + 1, count + 1, r =>
    match decodeVal fuel r with
    | some (v, r1) =>
      match decodeVals fuel count r1 with
      | some (vs, r2) => some (v :: vs, r2)
      | none => none
    | none => none

/-- Decoder reading back `count` mapping entries. -/
def decodeKVs : Nat → Nat → List Nat → Option (List (String × Value) × List Nat)
  | 0, _, _ => none
  | _ + 1, 0, r => some ([], r)
  | fuel + 1, count + 1, r =>
    match decVarNat r with
    | some (klen, r0) =>
      match decChars klen r0 with
      | some (cs, r1) =>
        match decodeVal fuel r1 with
        | some (v, r2) =>
          match decodeKVs fuel count r2 with
          | some (kvs, r3) => some ((String.mk cs, v) :: kvs, r3)
          | none => none
        | none => none
      | none => none
    | none => none

end

mutual

/-- Fuel needed to decode a value: one unit per decoder call. -/
def decodeBudget : Value → Nat
  | .nil | .bool _ | .int _ | .str _ | .bin _ => 1
  | .arr xs => 1 + decodeBudgetL xs
  | .map kvs => 1 + decodeBudgetKV kvs

/-- Fuel needed to decode an array's elements. -/
def decodeBudgetL : List Value → Nat
  | [] => 1
  | v :: vs => 1 + decodeBudget v + decodeBudgetL vs

/-- Fuel needed to decode a mapping's entries. -/
def decodeBudgetKV : List (String × Value) → Nat
  | [] => 1
  | (_, v) :: kvs => 1 + decodeBudget v + decodeBudgetKV kvs

end

mutual

theorem decodeVal_encodeVal (v : Value) : ∀ fuel rest, decodeBudget v ≤ fuel →
    decodeVal fuel (encodeVal v ++ rest) = some (v, rest) := by
  cases v with
  | nil =>
    intro fuel rest h
    cases fuel with
    | zero => exact absurd h (by simp [decodeBudget])
    | succ fuel => simp [encodeVal, decodeVal]
  | bool b =>
    intro fuel rest h
    cases fuel with
    | zero => exact absurd h (by cases b <;> simp [decodeBudget])
    | succ fuel => cases b <;> simp [encodeVal, decodeVal]
  | int n =>
    intro fuel rest h
    cases fuel with
    | zero => exact absurd h (by simp [decodeBudget])
    | succ fuel =>
      simp [encodeVal, decodeVal, decInt_encInt]
  | str s =>
    intro fuel rest h
    cases fuel with
    | zero => exact absurd h (by simp [decodeBudget])
    | succ fuel =>
      have hc : decChars s.length (encChars s.data ++ rest) = some (s.data, rest) :=
        decChars_encChars s.data rest
      simp [encodeVal, decodeVal, decVarNat_encVarNat, hc]
  | bin bytes =>
    intro fuel rest h
    cases fuel with
    | zero => exact absurd h (by simp [decodeBudget])
    | succ fuel =>
      simp [encodeVal, decodeVal, decVarNat_encVarNat, decNats_encNats bytes rest]
  | arr xs =>
    intro fuel rest h
    cases fuel with
    | zero =>
      exfalso
      have hb : decodeBudget (Value.arr xs) = 1 + decodeBudgetL xs := rfl
      omega
    | succ fuel =>
      have hx : decodeBudgetL xs ≤ fuel := by
        have hb : decodeBudget (Value.arr xs) = 1 + decodeBudgetL xs := rfl
        omega
      simp [encodeVal, decodeVal, decVarNat_encVarNat, decodeVals_encodeVals xs fuel rest hx]
  | map kvs =>
    intro fuel rest h
    cases fuel with
    | zero =>
      exfalso
      have hb : decodeBudget (Value.map kvs) = 1 + decodeBudgetKV kvs := rfl
      omega
    | succ fuel =>
      have hx : decodeBudgetKV kvs ≤ fuel := by
        have hb : decodeBudget (Value.map kvs) = 1 + decodeBudgetKV kvs := rfl
        omega
      simp [encodeVal, decodeVal, decVarNat_encVarNat, decodeKVs_encodeKVs kvs fuel rest hx]

theorem decodeVals_encodeVals (vs : List Value) : ∀ fuel rest, decodeBudgetL vs ≤ fuel →
    decodeVals fuel vs.length (encodeVals vs ++ rest) = some (vs, rest) := by
  cases vs with
  | nil =>
    intro fuel rest h
    cases fuel with
    | zero => exact absurd h (by simp [decodeBudgetL])
    | succ fuel => simp [encodeVals, decodeVals]
  | cons v vs =>
    intro fuel rest h
    cases fuel with
    | zero =>
      exfalso
      have hb : decodeBudgetL (v :: vs) = 1 + decodeBudget v + decodeBudgetL vs := rfl
      omega
    | succ fuel =>
      have hb : decodeBudgetL (v :: vs) = 1 + decodeBudget v + decodeBudgetL vs := rfl
      have hv : decodeBudget v ≤ fuel := by omega
      have hvs : decodeBudgetL vs ≤ fuel := by omega
      simp [encodeVals, decodeVals, decodeVal_encodeVal v fuel (encodeVals vs ++ rest) hv,
        decodeVals_encodeVals vs fuel rest hvs]

theorem decodeKVs_encodeKVs (kvs : List (String × Value)) : ∀ fuel rest,
    decodeBudgetKV kvs ≤ fuel →
    decodeKVs fuel kvs.length (encodeKVs kvs ++ rest) = some (kvs, rest) := by
  cases kvs with
  | nil =>
    intro fuel rest h
    cases fuel with
    | zero => exact absurd h (by simp [decodeBudgetKV])
    | succ fuel => simp [encodeKVs, decodeKVs]
  | cons kv kvs =>
    obtain ⟨k, v⟩ := kv
    intro fuel rest h
    cases fuel with
    | zero =>
      exfalso
      have hb : decodeBudgetKV ((k, v) :: kvs) = 1 + decodeBudget v + decodeBudgetKV kvs := rfl
      omega
    | succ fuel =>
      have hb : decodeBudgetKV ((k, v) :: kvs) = 1 + decodeBudget v + decodeBudgetKV kvs := rfl
      have hv : decodeBudget v ≤ fuel := by omega
      have hkvs : decodeBudgetKV kvs ≤ fuel := by omega
      have hc : decChars k.length (encChars k.data ++ (encodeVal v ++ (encodeKVs kvs ++ rest)))
          = some (k.data, encodeVal v ++ (encodeKVs kvs ++ rest)) :=
        decChars_encChars k.data _
      simp [encodeKVs, decodeKVs, decVarNat_encVarNat, hc,
        decodeVal_encodeVal v fuel (encodeKVs kvs ++ rest) hv,
        decodeKVs_encodeKVs kvs fuel rest hkvs]

end

/-- AMQP.serialize: encode a message to its wire bytes
(`msgpack.packb(message, use_bin_type=True)` in the source). -/
def serialize (message : Value) : List Nat :=
  encodeVal message

/-- AMQP.deserialize: decode wire bytes back to a message
(`msgpack.unpackb(message, encoding='utf8')` in the source); `none` models a
decoding error. -/
def deserialize (message : List Nat) : Option Value :=
  match decodeVal (3 * message.length) message with
  | some (v, _) => some v
  | none => none

theorem encVarNatAux_length_pos (fuel n : Nat) : 1 ≤ (encVarNatAux fuel n).length := by
  cases fuel with
  | zero => simp [encVarNatAux]
  | succ k => by_cases h : n < 128 <;> simp [encVarNatAux, h]

theorem encVarNat_length_pos (n : Nat) : 1 ≤ (encVarNat n).length :=
  encVarNatAux_length_pos n n

mutual

theorem decodeBudget_le (v : Value) : decodeBudget v + 2 ≤ 3 * (encodeVal v).length := by
  cases v with
  | nil => simp [decodeBudget, encodeVal]
  | bool b => cases b <;> simp [decodeBudget, encodeVal]
  | int n =>
    have h1 : 1 ≤ (encInt n).length := by
      by_cases h : 0 ≤ n <;> simp [encInt, h]
    have hb : decodeBudget (Value.int n) = 1 := rfl
    simp only [encodeVal, List.length_cons]
    omega
  | str s =>
    have h1 := encVarNat_length_pos s.length
    have hb : decodeBudget (Value.str s) = 1 := rfl
    simp only [encodeVal, List.length_cons, List.length_append]
    omega
  | bin bytes =>
    have h1 := encVarNat_length_pos bytes.length
    have hb : decodeBudget (Value.bin bytes) = 1 := rfl
    simp only [encodeVal, List.length_cons, List.length_append]
    omega
  | arr xs =>
    have h1 := encVarNat_length_pos xs.length
    have h2 := decodeBudgetL_le xs
    have hb : decodeBudget (Value.arr xs) = 1 + decodeBudgetL xs := rfl
    simp only [encodeVal, List.length_cons, List.length_append]
    omega
  | map kvs =>
    have h1 := encVarNat_length_pos kvs.length
    have h2 := decodeBudgetKV_le kvs
    have hb : decodeBudget (Value.map kvs) = 1 + decodeBudgetKV kvs := rfl
    simp only [encodeVal, List.length_cons, List.length_append]
    omega

theorem decodeBudgetL_le (vs : List Value) :
    decodeBudgetL vs ≤ 3 * (encodeVals vs).length + 1 := by
  cases vs with
  | nil => simp [decodeBudgetL, encodeVals]
  | cons v vs =>
    have h1 := decodeBudget_le v
    have h2 := decodeBudgetL_le vs
    have hb : decodeBudgetL (v :: vs) = 1 + decodeBudget v + decodeBudgetL vs := rfl
    simp only [encodeVals, List.length_append]
    omega

theorem decodeBudgetKV_le (kvs : List (String × Value)) :
    decodeBudgetKV kvs ≤ 3 * (encodeKVs kvs).length + 1 := by
  cases kvs with
  | nil => simp [decodeBudgetKV, encodeKVs]
  | cons kv kvs =>
    obtain ⟨k, v⟩ := kv
    have h1 := decodeBudget_le v
    have h2 := decodeBudgetKV_le kvs
    have h3 := encVarNat_length_pos k.length
    have hb : decodeBudgetKV ((k, v) :: kvs) = 1 + decodeBudget v + decodeBudgetKV kvs := rfl
    simp only [encodeKVs, List.length_append]
    omega

end

/-- Codec roundtrip: decoding an encoded message restores it exactly. -/
theorem deserialize_serialize (message : Value) :
    deserialize (serialize message) = some message := by
  have hfuel : decodeBudget message ≤ 3 * (encodeVal message).length := by
    have := decodeBudget_le message
    omega
  have h := decodeVal_encodeVal message (3 * (encodeVal message).length) [] hfuel
  rw [List.append_nil] at h
  simp [deserialize, serialize, h]

/-! ### Broker state, reply tokens, and AMQP.send -/

/-- Queue and exchange declaration argument values. -/
inductive ArgVal where
  | str (s : String) : ArgVal
  | nat (n : Nat) : ArgVal
deriving DecidableEq, Repr

/-- Name of the dead-letter exchange and queue (`AMQP.dead_letters`). -/
def dead_letters : String := "dead-letters"

/-- Arguments passed on every per-channel queue declaration
(`arguments={'x-dead-letter-exchange': self.dead_letters}`). -/
def channelQueueArgs : List (String × ArgVal) :=
  [("x-dead-letter-exchange", ArgVal.str dead_letters)]

/-- Configuration fields of the `AMQP` class used by the embedded methods. -/
structure AMQP where
  expiry : Nat
  group_expiry : Nat
  capacity : Nat
deriving DecidableEq, Repr

/-- A message stored in a broker queue: published body plus the optional
per-message `expiration` property. -/
structure PubMessage where
  body : List Nat
  expiration : Option String
deriving DecidableEq, Repr

/-- State of one broker queue. -/
structure QueueState where
  arguments : List (String × ArgVal)
  messages : List PubMessage
deriving DecidableEq, Repr

/-- The broker's queue table, an association list keyed by queue name. -/
structure Broker where
  queues : List (String × QueueState)
deriving DecidableEq, Repr

/-- Association-list lookup by queue name. -/
def lookupQueue : List (String × QueueState) → String → Option QueueState
  | [], _ => none
  | (n, q) :: rest, name => if n = name then some q else lookupQueue rest name

/-- Association-list update (insertion at the end when absent). -/
def setQueue : List (String × QueueState) → String → QueueState → List (String × QueueState)
  | [], name, q => [(name, q)]
  | (n, q0) :: rest, name, q =>
    if n = name then (n, q) :: rest else (n, q0) :: setQueue rest name q

/-- Broker with no queues. -/
def Broker.empty : Broker := ⟨[]⟩

/-- Broker effect of `queue_declare`: idempotent; creates an empty queue with
the given arguments when absent, otherwise leaves the queue untouched. -/
def Broker.queue_declare (b : Broker) (queue : String)
    (arguments : List (String × ArgVal)) : Broker :=
  match lookupQueue b.queues queue with
  | some _ => b
  | none => ⟨setQueue b.queues queue ⟨arguments, []⟩⟩

/-- Messages currently sitting in a queue (empty when the queue is absent). -/
def Broker.queue_messages (b : Broker) (queue : String) : List PubMessage :=
  match lookupQueue b.queues queue with
  | some q => q.messages
  | none => []

/-- The `message_count` field of the declare-ok reply for a queue. -/
def Broker.message_count (b : Broker) (queue : String) : Nat :=
  (b.queue_messages queue).length

/-- Broker effect of a publish to the empty (default) exchange: the message is
routed to the queue named by the routing key, or dropped when absent. -/
def Broker.default_publish (b : Broker) (routing_key : String) (msg : PubMessage) : Broker :=
  match lookupQueue b.queues routing_key with
  | some q => ⟨setQueue b.queues routing_key ⟨q.arguments, q.messages ++ [msg]⟩⟩
  | none => b

/-- An arbitrary Python exception value, identified by its text. -/
structure PyError where
  message : String
deriving DecidableEq, Repr

/-- A token deposited into a caller's reply sink: a thunk reproducing the
result (the `lambda: None` success token is `thunk none`) or a failure thunk
(`partial(throw, error)` in the source). -/
inductive ResultTok (α : Type) where
  | thunk (v : α) : ResultTok α
  | failure (e : PyError) : ResultTok α
deriving DecidableEq, Repr

/-- Reading a token on the calling thread runs its thunk: a success token
yields its result and a failure token re-raises its error (the source's
`throw`). -/
def readResult {α : Type} : ResultTok α → Except PyError α
  | .thunk v => .ok v
  | .failure e => .error e

/-- The error raised by `publish_message` at capacity
(`RabbitmqChannelLayer.ChannelFull`). -/
inductive SendError where
  | ChannelFull
deriving DecidableEq, Repr

/-- Observable steps of handling one `send` work item, in order. -/
inductive SendEvt where
  | queue_declare (queue : String) (arguments : List (String × ArgVal))
  | serialize_step (message : Value)
  | basic_publish (exchange routing_key : String) (body : List Nat) (expiration : Option String)

/-- AMQP.publish_message: the continuation run on the declare-ok reply.  The
capacity check precedes serialization and the publish; on success it yields
the ordered events, the published message, and the no-op success token. -/
def publish_message (self : AMQP) (channel : String) (message : Value)
    (message_count : Nat) :
    Except SendError (List SendEvt × PubMessage × ResultTok (Option Value)) :=
  if self.capacity ≤ message_count then .error .ChannelFull
  else
    let body := serialize message
    let expiration := toString (self.expiry * 1000)
    .ok ([.serialize_step message, .basic_publish "" channel body (some expiration)],
      ⟨body, some expiration⟩, .thunk none)

/-- AMQP.send: declare the channel's queue (with the dead-letter argument),
read `message_count` from the declare reply, and run `publish_message`.
Returns the broker state, the ordered events, and the caller's outcome. -/
def send (self : AMQP) (b : Broker) (channel : String) (message : Value) :
    Broker × List SendEvt × Except SendError (ResultTok (Option Value)) :=
  let dEvt := SendEvt.queue_declare channel channelQueueArgs
  let b1 := b.queue_declare channel channelQueueArgs
  match publish_message self channel message (b1.message_count channel) with
  | .error e => (b1, [dEvt], .error e)
  | .ok (evts, msg, tok) => (b1.default_publish channel msg, dEvt :: evts, .ok tok)

/-- Iterated sends to one channel with no intervening consume. -/
def sendN (self : AMQP) (b : Broker) (channel : String) :
    List Value → Broker × List (Except SendError (ResultTok (Option Value)))
  | [] => (b, [])
  | m :: ms =>
    let r := send self b channel m
    let rest := sendN self r.1 channel ms
    (rest.1, r.2.2 :: rest.2)

theorem lookupQueue_setQueue_self (l : List (String × QueueState)) (name : String)
    (q : QueueState) : lookupQueue (setQueue l name q) name = some q := by
  induction l with
  | nil => simp [setQueue, lookupQueue]
  | cons p rest ih =>
    obtain ⟨n, q0⟩ := p
    by_cases h : n = name <;> simp [setQueue, lookupQueue, h, ih]

theorem lookupQueue_setQueue_ne (l : List (String × QueueState)) (name other : String)
    (q : QueueState) (h : name ≠ other) :
    lookupQueue (setQueue l name q) other = lookupQueue l other := by
  induction l with
  | nil => simp [setQueue, lookupQueue, h]
  | cons p rest ih =>
    obtain ⟨n, q0⟩ := p
    by_cases hn : n = name
    · subst hn
      simp [setQueue, lookupQueue, h, ih]
    · by_cases ho : n = other <;> simp [setQueue, lookupQueue, hn, ho, Ne.symm h, ih]

/-- Declaring a queue changes no queue's message list. -/
theorem queue_declare_queue_messages (b : Broker) (queue : String)
    (arguments : List (String × ArgVal)) (other : String) :
    (b.queue_declare queue arguments).queue_messages other = b.queue_messages other := by
  unfold Broker.queue_declare Broker.queue_messages
  cases hl : lookupQueue b.queues queue with
  | some q => rfl
  | none =>
    by_cases h : queue = other
    · subst h
      simp [lookupQueue_setQueue_self, hl]
    · simp [lookupQueue_setQueue_ne _ _ _ _ h]

/-- After a declare, the declared queue is present, holding its old messages. -/
theorem queue_declare_lookup_self (b : Broker) (queue : String)
    (arguments : List (String × ArgVal)) :
    ∃ q, lookupQueue (b.queue_declare queue arguments).queues queue = some q ∧
      q.messages = b.queue_messages queue := by
  unfold Broker.queue_declare Broker.queue_messages
  cases hl : lookupQueue b.queues queue with
  | some q => exact ⟨q, hl, rfl⟩
  | none => exact ⟨⟨arguments, []⟩, by simp [lookupQueue_setQueue_self], rfl⟩

/-- Declaring a queue does not change any reported message count. -/
theorem queue_declare_message_count (b : Broker) (queue : String)
    (arguments : List (String × ArgVal)) (other : String) :
    (b.queue_declare queue arguments).message_count other = b.message_count other := by
  unfold Broker.message_count
  rw [queue_declare_queue_messages]

/-- Behaviour of one send below capacity: events in order (declare, serialize,
publish), the no-op success token, exactly one message appended to the
channel's queue, and every other queue untouched. -/
theorem send_success (self : AMQP) (b : Broker) (channel : String) (message : Value)
    (h : b.message_count channel < self.capacity) :
    (send self b channel message).2.1
        = [SendEvt.queue_declare channel channelQueueArgs,
           SendEvt.serialize_step message,
           SendEvt.basic_publish "" channel (serialize message)
             (some (toString (self.expiry * 1000)))] ∧
    (send self b channel message).2.2 = .ok (.thunk none) ∧
    (send self b channel message).1.queue_messages channel
        = b.queue_messages channel
          ++ [⟨serialize message, some (toString (self.expiry * 1000))⟩] ∧
    (∀ other, other ≠ channel →
      (send self b channel message).1.queue_messages other = b.queue_messages other) := by
  obtain ⟨q, hq, hmsg⟩ := queue_declare_lookup_self b channel channelQueueArgs
  have hcount : (b.queue_declare channel channelQueueArgs).message_count channel
      = b.message_count channel := queue_declare_message_count b channel channelQueueArgs channel
  have hpm : publish_message self channel message
      ((b.queue_declare channel channelQueueArgs).message_count channel)
      = .ok ([.serialize_step message,
              .basic_publish "" channel (serialize message)
                (some (toString (self.expiry * 1000)))],
             ⟨serialize message, some (toString (self.expiry * 1000))⟩, .thunk none) := by
    rw [hcount]
    unfold publish_message
    rw [if_neg (by omega)]
  refine ⟨by simp [send, hpm], by simp [send, hpm], ?_, ?_⟩
  · simp only [send, hpm]
    simp only [Broker.default_publish, hq]
    unfold Broker.queue_messages
    simp [lookupQueue_setQueue_self, hmsg]
    rfl
  · intro other hne
    simp only [send, hpm]
    simp only [Broker.default_publish, hq]
    have h1 : (Broker.mk (setQueue (b.queue_declare channel channelQueueArgs).queues channel
        ⟨q.arguments, q.messages
          ++ [⟨serialize message, some (toString (self.expiry * 1000))⟩]⟩)).queue_messages other
        = (b.queue_declare channel channelQueueArgs).queue_messages other := by
      unfold Broker.queue_messages
      rw [lookupQueue_setQueue_ne _ _ _ _ (Ne.symm hne)]
    rw [h1, queue_declare_queue_messages]

/-- Behaviour of one send at or above capacity: only the declare happened, the
broker gained no message anywhere, and the outcome is ChannelFull. -/
theorem send_full (self : AMQP) (b : Broker) (channel : String) (message : Value)
    (h : self.capacity ≤ b.message_count channel) :
    (send self b channel message).1 = b.queue_declare channel channelQueueArgs ∧
    (send self b channel message).2.1 = [SendEvt.queue_declare channel channelQueueArgs] ∧
    (send self b channel message).2.2 = .error .ChannelFull := by
  have hcount : (b.queue_declare channel channelQueueArgs).message_count channel
      = b.message_count channel := queue_declare_message_count b channel channelQueueArgs channel
  have hpm : publish_message self channel message
      ((b.queue_declare channel channelQueueArgs).message_count channel)
      = .error .ChannelFull := by
    rw [hcount]
    unfold publish_message
    rw [if_pos h]
  exact ⟨by simp [send, hpm], by simp [send, hpm], by simp [send, hpm]⟩

/-- Iterated sends all succeed while the queue stays within capacity, and each
success grows the queue by one. -/
theorem sendN_within_capacity (self : AMQP) (channel : String) :
    ∀ (msgs : List Value) (b : Broker),
      b.message_count channel + msgs.length ≤ self.capacity →
      (∀ r ∈ (sendN self b channel msgs).2, r = .ok (.thunk none)) ∧
      (sendN self b channel msgs).1.message_count channel
        = b.message_count channel + msgs.length := by
  intro msgs
  induction msgs with
  | nil =>
    intro b h
    exact ⟨by simp [sendN], by simp [sendN]⟩
  | cons m ms ih =>
    intro b h
    have hlen : (m :: ms).length = ms.length + 1 := rfl
    have hlt : b.message_count channel < self.capacity := by omega
    obtain ⟨hev, hres, hself, hother⟩ := send_success self b channel m hlt
    have hcnt : (send self b channel m).1.message_count channel
        = b.message_count channel + 1 := by
      unfold Broker.message_count
      rw [hself]
      simp
    obtain ⟨ih1, ih2⟩ := ih (send self b channel m).1 (by omega)
    constructor
    · intro r hr
      simp only [sendN, List.mem_cons] at hr
      rcases hr with h1 | h2
      · rw [h1, hres]
      · exact ih1 r h2
    · show (sendN self (send self b channel m).1 channel ms).1.message_count channel
          = b.message_count channel + (m :: ms).length
      omega

/-- C1: send declares the channel's queue with the dead-letter-exchange
argument and reads the declare reply's message count; at or above capacity the
call fails with ChannelFull; below capacity it publishes exactly one message
to the default exchange with routing key = channel, body = the encoded
message, expiration = `str(expiry * 1000)`, and the caller's success result
is the no-op `None` thunk.  Hence from an empty broker, any `n ≤ capacity`
successive sends succeed and a send finding the queue at capacity raises
ChannelFull. -/
theorem C1_send_contract (self : AMQP) (channel : String) :
    (∀ (b : Broker) (message : Value),
      self.capacity ≤ (b.queue_declare channel channelQueueArgs).message_count channel →
        (send self b channel message).2.1
          = [SendEvt.queue_declare channel channelQueueArgs] ∧
        (send self b channel message).2.2 = .error .ChannelFull) ∧
    (∀ (b : Broker) (message : Value),
      (b.queue_declare channel channelQueueArgs).message_count channel < self.capacity →
        (send self b channel message).2.1
          = [SendEvt.queue_declare channel channelQueueArgs,
             SendEvt.serialize_step message,
             SendEvt.basic_publish "" channel (serialize message)
               (some (toString (self.expiry * 1000)))] ∧
        (send self b channel message).2.2 = .ok (.thunk none) ∧
        readResult (ResultTok.thunk (α := Option Value) none) = .ok none ∧
        (send self b channel message).1.queue_messages channel
          = b.queue_messages channel
            ++ [⟨serialize message, some (toString (self.expiry * 1000))⟩]) ∧
    (∀ msgs : List Value, msgs.length ≤ self.capacity →
      ∀ r ∈ (sendN self Broker.empty channel msgs).2, r = .ok (.thunk none)) ∧
    (∀ (msgs : List Value) (m : Value), msgs.length = self.capacity →
      (send self (sendN self Broker.empty channel msgs).1 channel m).2.2
        = .error .ChannelFull) := by
  have hdecl : ∀ b : Broker,
      (b.queue_declare channel channelQueueArgs).message_count channel
        = b.message_count channel :=
    fun b => queue_declare_message_count b channel channelQueueArgs channel
  refine ⟨?_, ?_, ?_, ?_⟩
  · intro b message h
    rw [hdecl] at h
    obtain ⟨h1, h2, h3⟩ := send_full self b channel message h
    exact ⟨h2, h3⟩
  · intro b message h
    rw [hdecl] at h
    obtain ⟨h1, h2, h3, h4⟩ := send_success self b channel message h
    exact ⟨h1, h2, rfl, h3⟩
  · intro msgs hlen
    have h0 : Broker.empty.message_count channel = 0 := rfl
    exact (sendN_within_capacity self channel msgs Broker.empty (by omega)).1
  · intro msgs m hlen
    have h0 : Broker.empty.message_count channel = 0 := rfl
    have hend := (sendN_within_capacity self channel msgs Broker.empty (by omega)).2
    have hfull : self.capacity ≤ (sendN self Broker.empty channel msgs).1.message_count channel := by
      omega
    exact (send_full self _ channel m hfull).2.2

/-- C1 witness: with capacity 1, a send into a queue holding one message fails
with ChannelFull, a send into an empty broker succeeds, one send from empty
succeeds, and the next send then fails. -/
theorem C1_send_contract_witness :
    ((send ⟨60, 86400, 1⟩ ⟨[("c", ⟨channelQueueArgs, [⟨[], none⟩]⟩)]⟩ "c" Value.nil).2.2
        = .error .ChannelFull) ∧
    ((send ⟨60, 86400, 1⟩ Broker.empty "c" Value.nil).2.2 = .ok (.thunk none)) ∧
    (∀ r ∈ (sendN ⟨60, 86400, 1⟩ Broker.empty "c" [Value.nil]).2, r = .ok (.thunk none)) ∧
    ((send ⟨60, 86400, 1⟩ (sendN ⟨60, 86400, 1⟩ Broker.empty "c" [Value.nil]).1 "c"
        Value.nil).2.2 = .error .ChannelFull) := by
  have h := C1_send_contract ⟨60, 86400, 1⟩ "c"
  exact ⟨(h.1 _ Value.nil (by decide)).2, (h.2.1 _ Value.nil (by decide)).2.1,
    h.2.2.1 [Value.nil] (by decide), h.2.2.2 [Value.nil] Value.nil (by decide)⟩

/-- C9: when the declare reply reports the queue at or above capacity, send
fails with ChannelFull, the only event is the idempotent queue declare (no
serialization step and no publish), and no queue's contents change. -/
theorem C9_send_atomic_on_full (self : AMQP) (b : Broker) (channel : String) (message : Value)
    (h : self.capacity ≤ (b.queue_declare channel channelQueueArgs).message_count channel) :
    (send self b channel message).2.2 = .error .ChannelFull ∧
    (send self b channel message).2.1 = [SendEvt.queue_declare channel channelQueueArgs] ∧
    (∀ evt ∈ (send self b channel message).2.1,
      (∀ m, evt ≠ SendEvt.serialize_step m) ∧
      (∀ ex rk bd exp, evt ≠ SendEvt.basic_publish ex rk bd exp)) ∧
    (send self b channel message).1 = b.queue_declare channel channelQueueArgs ∧
    (∀ queue, (send self b channel message).1.queue_messages queue
      = b.queue_messages queue) := by
  rw [queue_declare_message_count] at h
  obtain ⟨h1, h2, h3⟩ := send_full self b channel message h
  refine ⟨h3, h2, ?_, h1, ?_⟩
  · intro evt hevt
    rw [h2] at hevt
    simp only [List.mem_singleton] at hevt
    subst hevt
    exact ⟨fun m => by simp, fun ex rk bd exp => by simp⟩
  · intro queue
    rw [h1, queue_declare_queue_messages]

/-- C9 witness: with capacity 0 every send fails atomically. -/
theorem C9_send_atomic_on_full_witness :
    (send ⟨60, 86400, 0⟩ Broker.empty "c" Value.nil).2.2 = .error .ChannelFull ∧
    (∀ queue, (send ⟨60, 86400, 0⟩ Broker.empty "c" Value.nil).1.queue_messages queue
      = Broker.empty.queue_messages queue) := by
  have h := C9_send_atomic_on_full ⟨60, 86400, 0⟩ Broker.empty "c" Value.nil (by decide)
  exact ⟨h.1, h.2.2.2.2⟩

/-- C2: the codec round trip is the identity on every supported message (a
mapping of text keys to supported values), and more generally on every
supported value, so binary payloads survive byte-for-byte and text payloads
decode back as text: the wire encoding distinguishes the two, and the decoded
message is the encoded one. -/
theorem C2_codec_roundtrip :
    (∀ kvs : List (String × Value),
      deserialize (serialize (Value.map kvs)) = some (Value.map kvs)) ∧
    (∀ message : Value, deserialize (serialize message) = some message) :=
  ⟨fun kvs => deserialize_serialize (Value.map kvs), deserialize_serialize⟩

/-! ### The dispatcher wrappers and send_group -/

/-- AMQP.propagate_error: wraps a work item's initial synchronous step.  The
step may deposit tokens into the item's reply sink and may raise an error;
the wrapper catches the raise and deposits a failure token into the same
sink, and never lets the error escape into the I/O loop. -/
def propagate_error {α : Type}
    (method : List (ResultTok α) → List (ResultTok α) × Option PyError)
    (result : List (ResultTok α)) : List (ResultTok α) × Option PyError :=
  let r := method result
  match r.2 with
  | some error => (r.1 ++ [.failure error], none)
  | none => (r.1, none)

/-- C8: when the wrapped work item's initial synchronous step raises an
error, propagate_error captures it (nothing escapes into the I/O loop),
deposits it into the item's reply sink as the final failure token, and
reading that token re-raises the same error at the facade call. -/
theorem C8_propagate_error {α : Type}
    (method : List (ResultTok α) → List (ResultTok α) × Option PyError)
    (result : List (ResultTok α)) (e : PyError)
    (h : (method result).2 = some e) :
    (propagate_error method result).2 = none ∧
    (propagate_error method result).1 = (method result).1 ++ [.failure e] ∧
    (propagate_error method result).1.getLast? = some (.failure e) ∧
    readResult (ResultTok.failure (α := α) e) = Except.error e := by
  have h2 : propagate_error method result = ((method result).1 ++ [.failure e], none) := by
    show (match (method result).2 with
          | some error => ((method result).1 ++ [ResultTok.failure error], none)
          | none => ((method result).1, none))
        = ((method result).1 ++ [ResultTok.failure e], none)
    rw [h]
  rw [h2]
  exact ⟨rfl, rfl, by simp, rfl⟩

/-- C8 witness: a step that raises `boom` without depositing anything leaves
exactly the failure token, which re-raises `boom` on read. -/
theorem C8_propagate_error_witness :
    (propagate_error (α := Option Value) (fun s => (s, some ⟨"boom"⟩)) []).2 = none ∧
    (propagate_error (α := Option Value) (fun s => (s, some ⟨"boom"⟩)) []).1
      = [.failure ⟨"boom"⟩] ∧
    readResult (ResultTok.failure (α := Option Value) ⟨"boom"⟩)
      = Except.error ⟨"boom"⟩ := by
  have h := C8_propagate_error (α := Option Value) (fun s => (s, some ⟨"boom"⟩)) [] ⟨"boom"⟩ rfl
  exact ⟨h.1, h.2.1, h.2.2.2⟩

/-- Work items queued to the dispatcher that this development models. -/
inductive WorkItem where
  | send_group_item (group : String) (message : Value)

/-- State shared between the facade and the dispatcher: the submission queue
and the per-thread reply sinks (thread identity to sink contents). -/
structure LayerState where
  calls : List WorkItem
  sinks : List (Nat × List (ResultTok (Option Value)))

/-- RabbitmqChannelLayer.send_group: enqueue the publish work item with no
result slot and return immediately; the second component is what the call
reads from a sink — `none`: it reads nothing. -/
def layer_send_group (st : LayerState) (group : String) (message : Value) :
    LayerState × Option (ResultTok (Option Value)) :=
  ({ st with calls := st.calls ++ [WorkItem.send_group_item group message] }, none)

/-- AMQP.send_group under `retry_if_closed` (and without `propagate_error`):
when the operational channel is closed the item is re-enqueued unchanged;
otherwise the message is serialized and published to the group exchange with
empty routing key and no expiration.  The serializer is passed explicitly
(the external msgpack packer may raise); its raise escapes the work item
(third component), reaching the I/O loop and touching no sink. -/
def amqp_send_group (channel_closed : Bool)
    (packb : Value → Except PyError (List Nat))
    (st : LayerState) (group : String) (message : Value) :
    LayerState × List SendEvt × Option PyError :=
  if channel_closed then
    ({ st with calls := st.calls ++ [WorkItem.send_group_item group message] }, [], none)
  else
    match packb message with
    | .error e => (st, [], some e)
    | .ok body => (st, [.basic_publish group "" body none], none)

/-- C10: send_group touches no reply sink.  The facade enqueues the work item
without a result slot and returns reading nothing; handling the item leaves
every sink untouched whether the channel is closed (item re-enqueued), the
serializer raises (error escapes, delivered to no caller), or the publish
happens. -/
theorem C10_send_group_no_sink (st : LayerState) (group : String) (message : Value)
    (channel_closed : Bool) (packb : Value → Except PyError (List Nat)) :
    (layer_send_group st group message).1.sinks = st.sinks ∧
    (layer_send_group st group message).2 = none ∧
    (layer_send_group st group message).1.calls
      = st.calls ++ [WorkItem.send_group_item group message] ∧
    (amqp_send_group channel_closed packb st group message).1.sinks = st.sinks ∧
    (channel_closed = true →
      (amqp_send_group true packb st group message).1.calls
        = st.calls ++ [WorkItem.send_group_item group message] ∧
      (amqp_send_group true packb st group message).2.2 = none) ∧
    (∀ e, packb message = .error e →
      (amqp_send_group false packb st group message).2.2 = some e ∧
      (amqp_send_group false packb st group message).1 = st) := by
  refine ⟨rfl, rfl, rfl, ?_, ?_, ?_⟩
  · cases channel_closed with
    | true => rfl
    | false =>
      unfold amqp_send_group
      cases packb message with
      | error e => rfl
      | ok body => rfl
  · intro _
    exact ⟨rfl, rfl⟩
  · intro e he
    unfold amqp_send_group
    rw [he]
    exact ⟨rfl, rfl⟩

/-- C10 witness: with an empty state, a raising serializer on an open channel
escapes without touching the state, and a closed channel re-enqueues. -/
theorem C10_send_group_no_sink_witness :
    (amqp_send_group false (fun _ => .error ⟨"TypeError"⟩) ⟨[], []⟩ "g" Value.nil).2.2
      = some ⟨"TypeError"⟩ ∧
    (amqp_send_group true (fun _ => .error ⟨"TypeError"⟩) ⟨[], []⟩ "g" Value.nil).2.2
      = none := by
  have h := C10_send_group_no_sink ⟨[], []⟩ "g" Value.nil true
    (fun _ => .error ⟨"TypeError"⟩)
  exact ⟨(h.2.2.2.2.2 ⟨"TypeError"⟩ rfl).1, (h.2.2.2.2.1 rfl).2⟩

/-! ### group_add and its callback chain -/

/-- Operations issued on the operational AMQP channel. -/
inductive AmqpOp where
  | queue_declare (queue : String) (arguments : List (String × ArgVal))
  | exchange_declare (exchange : String) (exchange_type : String)
  | exchange_bind (destination source : String)
  | queue_bind (queue exchange : String)
  | basic_publish (exchange routing_key : String) (body : List Nat)
deriving DecidableEq, Repr

/-- A synchronous burst of client code: it may deposit the success token,
issue a fire-and-forget publish, or issue an RPC operation while registering
a callback for its acknowledgement, then continue synchronously. -/
inductive Sync where
  | ret : Sync
  | put (k : Sync) : Sync
  | publish (op : AmqpOp) (k : Sync) : Sync
  | rpc (op : AmqpOp) (cb : Unit → Sync) (k : Sync) : Sync

/-- Execution state: operations issued so far (in order), callbacks awaiting
broker acknowledgements (FIFO, in issue order, matching the in-order replies
of a single AMQP channel), and the number of deposited results. -/
structure ExecState where
  log : List AmqpOp
  pend : List (Unit → Sync)
  results : Nat

/-- Run a synchronous burst to completion. -/
def runSync : Sync → ExecState → ExecState
  | .ret, s => s
  | .put k, s => runSync k { s with results := s.results + 1 }
  | .publish op k, s => runSync k { s with log := s.log ++ [op] }
  | .rpc op cb k, s => runSync k { s with log := s.log ++ [op], pend := s.pend ++ [cb] }

/-- Deliver the next broker acknowledgement: run the oldest pending
callback. -/
def ackStep (s : ExecState) : ExecState :=
  match s.pend with
  | [] => s
  | cb :: rest => runSync (cb ()) { s with pend := rest }

/-- Deliver `n` broker acknowledgements in order. -/
def drive : Nat → ExecState → ExecState
  | 0, s => s
  | n + 1, s => drive n (ackStep s)

/-- Name of the expire-marker queue for a group membership
(`'expire.bind.%s.%s' % (group, channel)`). -/
def expire_marker_name (group channel : String) : String :=
  "expire.bind." ++ group ++ "." ++ channel

/-- Arguments of the expire-marker queue declaration. -/
def marker_args (self : AMQP) : List (String × ArgVal) :=
  [("x-dead-letter-exchange", ArgVal.str dead_letters),
   ("x-message-ttl", ArgVal.nat (self.group_expiry * 1000)),
   ("x-expires", ArgVal.nat (self.group_expiry * 1000 + 500)),
   ("x-max-length", ArgVal.nat 1)]

/-- Body of the expire-marker message. -/
def marker_body (group channel : String) : List Nat :=
  serialize (Value.map [("group", Value.str group), ("channel", Value.str channel)])

/-- AMQP.expire_group_member: declare the marker queue registering
`push_marker` (which publishes the marker upon the declare-ok), then return
to the caller's synchronous code `k`. -/
def expire_group_member (self : AMQP) (group channel : String) (k : Sync) : Sync :=
  .rpc (.queue_declare (expire_marker_name group channel) (marker_args self))
    (fun _ => .publish (.basic_publish "" (expire_marker_name group channel)
      (marker_body group channel)) .ret)
    k

/-- AMQP.group_add: call expire_group_member, then issue the group exchange
declaration whose nested callbacks chain the member exchange declaration, the
channel queue declaration, the exchange bind, the queue bind, and finally the
success deposit. -/
def group_add (self : AMQP) (group channel : String) : Sync :=
  expire_group_member self group channel
    (.rpc (.exchange_declare group "fanout") (fun _ =>
      .rpc (.exchange_declare channel "fanout") (fun _ =>
        .rpc (.queue_declare channel channelQueueArgs) (fun _ =>
          .rpc (.exchange_bind channel group) (fun _ =>
            .rpc (.queue_bind channel channel) (fun _ =>
              .put .ret) .ret) .ret) .ret) .ret) .ret)

/-- C3 counterexample: in the state reached before any broker acknowledgement
has been delivered, group_add has already issued two operations — the marker
declare (step 1) and the group exchange declare (step 2) — with both
acknowledgement callbacks still pending.  So step 2 is not issued only after
step 1's acknowledgement, refuting the claimed strict chaining of all six
steps. -/
theorem C3_group_add_counterexample :
    ¬ ((runSync (group_add ⟨60, 86400, 100⟩ "g" "c") ⟨[], [], 0⟩).log.length ≤ 1) ∧
    (runSync (group_add ⟨60, 86400, 100⟩ "g" "c") ⟨[], [], 0⟩).log
      = [AmqpOp.queue_declare (expire_marker_name "g" "c") (marker_args ⟨60, 86400, 100⟩),
         AmqpOp.exchange_declare "g" "fanout"] ∧
    (runSync (group_add ⟨60, 86400, 100⟩ "g" "c") ⟨[], [], 0⟩).pend.length = 2 := by
  refine ⟨?_, rfl, rfl⟩
  show ¬ ((2 : Nat) ≤ 1)
  omega

/-- C3 amended: group_add issues the marker declare (step 1) and the group
exchange declare (step 2) synchronously, before any acknowledgement; the
marker publish is issued upon step 1's acknowledgement; each of steps 3-6 is
issued only upon the acknowledgement of the previous step among 2-6; and the
success token is deposited only upon step 6's acknowledgement. -/
theorem C3_group_add_order (self : AMQP) (g c : String) :
    ((runSync (group_add self g c) ⟨[], [], 0⟩).log
        = [AmqpOp.queue_declare (expire_marker_name g c) (marker_args self),
           AmqpOp.exchange_declare g "fanout"] ∧
      (runSync (group_add self g c) ⟨[], [], 0⟩).results = 0) ∧
    ((drive 1 (runSync (group_add self g c) ⟨[], [], 0⟩)).log
        = [AmqpOp.queue_declare (expire_marker_name g c) (marker_args self),
           AmqpOp.exchange_declare g "fanout",
           AmqpOp.basic_publish "" (expire_marker_name g c) (marker_body g c)] ∧
      (drive 1 (runSync (group_add self g c) ⟨[], [], 0⟩)).results = 0) ∧
    ((drive 2 (runSync (group_add self g c) ⟨[], [], 0⟩)).log
        = [AmqpOp.queue_declare (expire_marker_name g c) (marker_args self),
           AmqpOp.exchange_declare g "fanout",
           AmqpOp.basic_publish "" (expire_marker_name g c) (marker_body g c),
           AmqpOp.exchange_declare c "fanout"] ∧
      (drive 2 (runSync (group_add self g c) ⟨[], [], 0⟩)).results = 0) ∧
    ((drive 3 (runSync (group_add self g c) ⟨[], [], 0⟩)).log
        = [AmqpOp.queue_declare (expire_marker_name g c) (marker_args self),
           AmqpOp.exchange_declare g "fanout",
           AmqpOp.basic_publish "" (expire_marker_name g c) (marker_body g c),
           AmqpOp.exchange_declare c "fanout",
           AmqpOp.queue_declare c channelQueueArgs] ∧
      (drive 3 (runSync (group_add self g c) ⟨[], [], 0⟩)).results = 0) ∧
    ((drive 4 (runSync (group_add self g c) ⟨[], [], 0⟩)).log
        = [AmqpOp.queue_declare (expire_marker_name g c) (marker_args self),
           AmqpOp.exchange_declare g "fanout",
           AmqpOp.basic_publish "" (expire_marker_name g c) (marker_body g c),
           AmqpOp.exchange_declare c "fanout",
           AmqpOp.queue_declare c channelQueueArgs,
           AmqpOp.exchange_bind c g] ∧
      (drive 4 (runSync (group_add self g c) ⟨[], [], 0⟩)).results = 0) ∧
    ((drive 5 (runSync (group_add self g c) ⟨[], [], 0⟩)).log
        = [AmqpOp.queue_declare (expire_marker_name g c) (marker_args self),
           AmqpOp.exchange_declare g "fanout",
           AmqpOp.basic_publish "" (expire_marker_name g c) (marker_body g c),
           AmqpOp.exchange_declare c "fanout",
           AmqpOp.queue_declare c channelQueueArgs,
           AmqpOp.exchange_bind c g,
           AmqpOp.queue_bind c c] ∧
      (drive 5 (runSync (group_add self g c) ⟨[], [], 0⟩)).results = 0) ∧
    ((drive 6 (runSync (group_add self g c) ⟨[], [], 0⟩)).log
        = [AmqpOp.queue_declare (expire_marker_name g c) (marker_args self),
           AmqpOp.exchange_declare g "fanout",
           AmqpOp.basic_publish "" (expire_marker_name g c) (marker_body g c),
           AmqpOp.exchange_declare c "fanout",
           AmqpOp.queue_declare c channelQueueArgs,
           AmqpOp.exchange_bind c g,
           AmqpOp.queue_bind c c] ∧
      (drive 6 (runSync (group_add self g c) ⟨[], [], 0⟩)).results = 1 ∧
      (drive 6 (runSync (group_add self g c) ⟨[], [], 0⟩)).pend.length = 0) := by
  exact ⟨⟨rfl, rfl⟩, ⟨rfl, rfl⟩, ⟨rfl, rfl⟩, ⟨rfl, rfl⟩, ⟨rfl, rfl⟩, ⟨rfl, rfl⟩,
    ⟨rfl, rfl, rfl⟩⟩

/-! ### The dead-letter consumer -/

/-- One entry of the `x-death` message header: the origin queue name and the
reason the broker dead-lettered the message (`expired`, `maxlen`, ...). -/
structure XDeath where
  queue : String
  reason : String
deriving DecidableEq, Repr

/-- Reply-sink choice for a dispatched operation: the `skip_result` NullQueue
drops every deposited result; a caller sink belongs to a blocked thread. -/
inductive SinkKind where
  | skip_result : SinkKind
  | caller_sink : SinkKind
deriving DecidableEq, Repr

/-- Actions taken by the dead-letter consumer for one delivery. -/
inductive DLAction where
  | basic_ack : DLAction
  | group_discard (group channel : Value) (sink : SinkKind) : DLAction
  | exchange_delete (exchange : String) : DLAction

/-- AMQP.is_expire_marker (`queue.startswith('expire.bind.')`, expressed as a
character-prefix test). -/
def is_expire_marker (queue : String) : Bool :=
  "expire.bind.".data.isPrefixOf queue.data

/-- Lookup in a decoded mapping (Python `message['key']`). -/
def lookup_value : List (String × Value) → String → Option Value
  | [], _ => none
  | (k, v) :: rest, key => if k = key then some v else lookup_value rest key

/-- AMQP.on_dead_letter: acknowledge the delivery, recover the origin queue
name from the `queue` field of the first x-death entry, and dispatch: a
marker origin decodes the body and triggers group_discard with the
skip_result sink; any other origin triggers deletion of the fan-out exchange
named after the origin queue.  The second component models an escaping
KeyError (missing header entry or malformed body), raised after the ack. -/
def on_dead_letter (x_death : List XDeath) (body : List Nat) :
    List DLAction × Option PyError :=
  match x_death with
  | [] => ([.basic_ack], some ⟨"KeyError"⟩)
  | entry :: _ =>
    if is_expire_marker entry.queue then
      match deserialize body with
      | some (Value.map kvs) =>
        match lookup_value kvs "group", lookup_value kvs "channel" with
        | some group, some channel =>
          ([.basic_ack, .group_discard group channel .skip_result], none)
        | _, _ => ([.basic_ack], some ⟨"KeyError"⟩)
      | _ => ([.basic_ack], some ⟨"KeyError"⟩)
    else
      ([.basic_ack, .exchange_delete entry.queue], none)

/-- The consumer acknowledges every delivery first. -/
theorem on_dead_letter_acks (x_death : List XDeath) (body : List Nat) :
    (on_dead_letter x_death body).1.head? = some DLAction.basic_ack := by
  rcases x_death with _ | ⟨entry, rest⟩
  · rfl
  · simp only [on_dead_letter]
    by_cases h : is_expire_marker entry.queue
    · rw [if_pos h]
      rcases hd : deserialize body with _ | v
      · rfl
      · rcases v with _ | _ | _ | _ | _ | _ | kvs
        · rfl
        · rfl
        · rfl
        · rfl
        · rfl
        · rfl
        · rcases hg : lookup_value kvs "group" with _ | g <;>
            rcases hc : lookup_value kvs "channel" with _ | c <;>
            simp [hg, hc]
    · rw [if_neg h]
      rfl

/-- A marker-origin delivery carrying an encoded `{group, channel}` body is
acknowledged and dispatched as a group_discard with the result-dropping
sink. -/
theorem on_dead_letter_marker (entry : XDeath) (rest : List XDeath) (g c : Value)
    (h : is_expire_marker entry.queue = true) :
    on_dead_letter (entry :: rest)
        (serialize (Value.map [("group", g), ("channel", c)]))
      = ([DLAction.basic_ack, DLAction.group_discard g c SinkKind.skip_result], none) := by
  simp only [on_dead_letter]
  rw [if_pos h, deserialize_serialize]
  simp [lookup_value]

/-- A delivery whose origin is not a marker queue is acknowledged and triggers
deletion of the fan-out exchange named after the origin queue. -/
theorem on_dead_letter_other (entry : XDeath) (rest : List XDeath) (body : List Nat)
    (h : is_expire_marker entry.queue = false) :
    on_dead_letter (entry :: rest) body
      = ([DLAction.basic_ack, DLAction.exchange_delete entry.queue], none) := by
  simp only [on_dead_letter]
  rw [if_neg (by simp [h])]

/-- C5: every dead-letter delivery is acknowledged; the origin queue is read
from the first x-death entry; a marker origin (name beginning with
`expire.bind.`) decodes the body to its group and channel and submits
group_discard with the result-dropping sink; any other origin triggers
exchange_delete of the exchange named after the origin queue. -/
theorem C5_on_dead_letter_dispatch (entry : XDeath) (rest : List XDeath)
    (g c : Value) (body : List Nat) :
    ((on_dead_letter (entry :: rest) body).1.head? = some DLAction.basic_ack) ∧
    (is_expire_marker entry.queue = true →
      on_dead_letter (entry :: rest)
          (serialize (Value.map [("group", g), ("channel", c)]))
        = ([DLAction.basic_ack, DLAction.group_discard g c SinkKind.skip_result], none)) ∧
    (is_expire_marker entry.queue = false →
      on_dead_letter (entry :: rest) body
        = ([DLAction.basic_ack, DLAction.exchange_delete entry.queue], none)) :=
  ⟨on_dead_letter_acks (entry :: rest) body,
   fun h => on_dead_letter_marker entry rest g c h,
   fun h => on_dead_letter_other entry rest body h⟩

/-- C5 witness: concrete marker and non-marker deliveries. -/
theorem C5_on_dead_letter_dispatch_witness :
    (on_dead_letter [⟨"expire.bind.g.c", "expired"⟩]
        (serialize (Value.map [("group", Value.str "g"), ("channel", Value.str "c")]))
      = ([DLAction.basic_ack,
          DLAction.group_discard (Value.str "g") (Value.str "c") SinkKind.skip_result],
         none)) ∧
    (on_dead_letter [⟨"chan", "expired"⟩] []
      = ([DLAction.basic_ack, DLAction.exchange_delete "chan"], none)) := by
  have h1 := C5_on_dead_letter_dispatch ⟨"expire.bind.g.c", "expired"⟩ []
    (Value.str "g") (Value.str "c") []
  have h2 := C5_on_dead_letter_dispatch ⟨"chan", "expired"⟩ []
    (Value.str "g") (Value.str "c") []
  exact ⟨h1.2.1 (by decide), h2.2.2 (by decide)⟩

/-- C4: behaviour of the code at the failing input.  A delivery dead-lettered
from a marker queue with x-death reason `maxlen` is nonetheless treated as a
group-membership expiration: on_dead_letter never inspects the reason and
submits group_discard, contradicting the claimed (and intended, per the
source's FIXME) maxlen-ignoring behaviour. -/
theorem C4_maxlen_marker_still_discards :
    on_dead_letter [⟨"expire.bind.g.c", "maxlen"⟩]
        (serialize (Value.map [("group", Value.str "g"), ("channel", Value.str "c")]))
      = ([DLAction.basic_ack,
          DLAction.group_discard (Value.str "g") (Value.str "c") SinkKind.skip_result],
         none) :=
  on_dead_letter_marker ⟨"expire.bind.g.c", "maxlen"⟩ [] (Value.str "g") (Value.str "c")
    (by decide)

/-! ### receive -/

/-- The outcome-determining event of one receive call: either the poll
timeout fires first, or the first delivery arrives at the consumer that was
registered for the `idx`-th named channel. -/
inductive ReceiveEvent where
  | poll_timeout : ReceiveEvent
  | delivery (idx : Nat) (body : List Nat) : ReceiveEvent

/-- Channel-level actions of one receive call, in order. -/
inductive RcvAction where
  | add_timeout : RcvAction
  | basic_consume (queue : String) : RcvAction
  | remove_timeout : RcvAction
  | basic_ack : RcvAction
  | basic_cancel (tag : Nat) : RcvAction
deriving DecidableEq, Repr

/-- AMQP.receive: install the 100 ms poll timeout, register one consumer per
named queue (consumer tag = registration index), then react to the first
event.  A delivery removes the timeout, is acknowledged, every registered
consumer is cancelled, and the winning channel with the decoded body is
returned; the timeout cancels every consumer and returns `(None, None)`.
The `block` flag is ignored by the source. -/
def receive (channels : List String) (block : Bool) (ev : ReceiveEvent) :
    List RcvAction × (Option String × Option Value) :=
  let setup := RcvAction.add_timeout :: channels.map RcvAction.basic_consume
  match ev with
  | .poll_timeout =>
    (setup ++ (List.range channels.length).map RcvAction.basic_cancel, (none, none))
  | .delivery idx body =>
    (setup ++ [RcvAction.remove_timeout, RcvAction.basic_ack]
       ++ (List.range channels.length).map RcvAction.basic_cancel,
     (channels[idx]?, deserialize body))

/-- C6: receive registers a consumer on each named queue; the first delivery
is acknowledged, every consumer (in particular every other one) is
cancelled, and the call returns the winning channel with the decoded
message; a poll timeout cancels every consumer and returns `(None, None)`;
and `block = true` behaves identically to `block = false`. -/
theorem C6_receive_contract (channels : List String) (block : Bool) (m : Value)
    (idx : Nat) (h : idx < channels.length) :
    (∀ ev, receive channels true ev = receive channels false ev) ∧
    (receive channels block ReceiveEvent.poll_timeout
      = (RcvAction.add_timeout :: channels.map RcvAction.basic_consume
          ++ (List.range channels.length).map RcvAction.basic_cancel,
         (none, none))) ∧
    ((∀ ch ∈ channels, RcvAction.basic_consume ch
        ∈ (receive channels block ReceiveEvent.poll_timeout).1)) ∧
    ((receive channels block (ReceiveEvent.delivery idx (serialize m))).2
      = (some channels[idx], some m)) ∧
    (∀ tag, tag < channels.length →
      RcvAction.basic_cancel tag
        ∈ (receive channels block (ReceiveEvent.delivery idx (serialize m))).1) ∧
    (RcvAction.basic_ack
      ∈ (receive channels block (ReceiveEvent.delivery idx (serialize m))).1) := by
  refine ⟨fun ev => by cases ev <;> rfl, rfl, ?_, ?_, ?_, ?_⟩
  · intro ch hch
    simp [receive, hch]
  · show ((channels[idx]?, deserialize (serialize m)) : Option String × Option Value)
      = (some channels[idx], some m)
    rw [List.getElem?_eq_getElem h, deserialize_serialize]
  · intro tag htag
    simp [receive, htag]
  · simp [receive]

/-- C6 witness: two channels, a delivery on the second. -/
theorem C6_receive_contract_witness :
    ((receive ["a", "b"] false (ReceiveEvent.delivery 1 (serialize Value.nil))).2
      = (some "b", some Value.nil)) ∧
    (RcvAction.basic_cancel 0
      ∈ (receive ["a", "b"] false (ReceiveEvent.delivery 1 (serialize Value.nil))).1) ∧
    (receive ["a", "b"] false ReceiveEvent.poll_timeout).2 = (none, none) := by
  have h := C6_receive_contract ["a", "b"] false Value.nil 1 (by decide)
  refine ⟨h.2.2.2.1, h.2.2.2.2.1 0 (by decide), ?_⟩
  rw [h.2.1]

/-! ### new_channel -/

/-- The candidate letters (`string.ascii_letters`). -/
def ascii_letters : List Char :=
  "abcdefghijklmnopqrstuvwxyzABCDEFGHIJKLMNOPQRSTUVWXYZ".data

/-- One random letter (`self.random.choice(string.ascii_letters)`), drawn
from a stream of random numbers. -/
def pick_letter (n : Nat) : Char :=
  ascii_letters.getD (n % 52) 'a'

/-- The 12-letter random suffix of the i-th candidate
(`''.join(self.random.choice(string.ascii_letters) for _ in range(12))`). -/
def random_string (rand : Nat → Nat) (i : Nat) : String :=
  String.mk ((List.range 12).map (fun j => pick_letter (rand (12 * i + j))))

/-- The assertion error of new_channel for a pattern of the wrong shape. -/
inductive NewChannelError where
  | InvalidPattern : NewChannelError
deriving DecidableEq, Repr

/-- The pattern check (`pattern.endswith('!') or pattern.endswith('?')`),
expressed on the final character. -/
def pattern_ok (pattern : String) : Bool :=
  pattern.data.getLast? = some '!' || pattern.data.getLast? = some '?'

/-- The generate-and-test loop of new_channel: returns the list of candidate
names whose existence was checked against the broker (via channel_exists's
passive declare, reported by the `declared` oracle) and the returned name.
The fuel bounds the source's unbounded `while True`. -/
def new_channel_loop (pattern : String) (rand : Nat → Nat) (declared : String → Bool) :
    Nat → Nat → List String × Option String
  | 0, _ => ([], none)
  | fuel + 1, i =>
    let channel := pattern ++ random_string rand i
    if declared channel then
      let r := new_channel_loop pattern rand declared fuel (i + 1)
      (channel :: r.1, r.2)
    else ([channel], some channel)

/-- RabbitmqChannelLayer.new_channel: assert the pattern shape (before any
broker interaction), then generate candidates until one is absent. -/
def new_channel (pattern : String) (rand : Nat → Nat) (declared : String → Bool)
    (fuel : Nat) : List String × Except NewChannelError (Option String) :=
  if pattern_ok pattern then
    let r := new_channel_loop pattern rand declared fuel 0
    (r.1, .ok r.2)
  else ([], .error .InvalidPattern)

/-- The `n` candidate names generated from iteration `i` on. -/
def candidate_names (pattern : String) (rand : Nat → Nat) : Nat → Nat → List String
  | _, 0 => []
  | i, n + 1 => (pattern ++ random_string rand i) :: candidate_names pattern rand (i + 1) n

theorem new_channel_loop_spec (pattern : String) (rand : Nat → Nat)
    (declared : String → Bool) :
    ∀ (k i fuel : Nat), k < fuel →
      (∀ j, j < k → declared (pattern ++ random_string rand (i + j)) = true) →
      declared (pattern ++ random_string rand (i + k)) = false →
      new_channel_loop pattern rand declared fuel i
        = (candidate_names pattern rand i (k + 1),
           some (pattern ++ random_string rand (i + k))) := by
  intro k
  induction k with
  | zero =>
    intro i fuel hf hb h0
    cases fuel with
    | zero => omega
    | succ f =>
      have h0i : declared (pattern ++ random_string rand i) = false := by
        have := h0
        simpa using this
      simp [new_channel_loop, h0i, candidate_names]
  | succ k ih =>
    intro i fuel hf hb h0
    cases fuel with
    | zero => omega
    | succ f =>
      have hd0 : declared (pattern ++ random_string rand i) = true := by
        have := hb 0 (by omega)
        simpa using this
      have hb2 : ∀ j, j < k → declared (pattern ++ random_string rand ((i + 1) + j)) = true := by
        intro j hj
        have h2 := hb (j + 1) (by omega)
        have he : i + (j + 1) = (i + 1) + j := by omega
        rwa [he] at h2
      have h02 : declared (pattern ++ random_string rand ((i + 1) + k)) = false := by
        have he : i + (k + 1) = (i + 1) + k := by omega
        rwa [he] at h0
      have hrec := ih (i + 1) f (by omega) hb2 h02
      simp only [new_channel_loop, hd0, if_true, hrec, candidate_names]
      simp only [Prod.mk.injEq]
      exact ⟨trivial, by rw [show (i + 1) + k = i + (k + 1) from by omega]⟩

/-- C7: a pattern not ending in `!` or `?` is rejected with an error before
any broker interaction (no existence check happens); for a valid pattern the
returned name is the pattern followed by exactly 12 ASCII letters, it is the
first generated candidate whose passive-declare existence check reports the
queue absent, and it is absent at return time. -/
theorem C7_new_channel (pattern : String) (rand : Nat → Nat) (declared : String → Bool)
    (fuel k : Nat)
    (hp : pattern_ok pattern = true)
    (hk : k < fuel)
    (hbefore : ∀ j, j < k → declared (pattern ++ random_string rand j) = true)
    (hfound : declared (pattern ++ random_string rand k) = false) :
    (∀ q r d f, pattern_ok q = false →
      new_channel q r d f = ([], Except.error NewChannelError.InvalidPattern)) ∧
    new_channel pattern rand declared fuel
      = (candidate_names pattern rand 0 (k + 1),
         Except.ok (some (pattern ++ random_string rand k))) ∧
    (random_string rand k).length = 12 ∧
    (∀ ch ∈ (random_string rand k).data, ch ∈ ascii_letters) ∧
    declared (pattern ++ random_string rand k) = false := by
  refine ⟨?_, ?_, ?_, ?_, hfound⟩
  · intro q r d f hq
    simp [new_channel, hq]
  · have hloop := new_channel_loop_spec pattern rand declared k 0 fuel hk
      (by intro j hj; simpa using hbefore j hj) (by simpa using hfound)
    simp only [new_channel, hp, if_true, hloop]
    simp
  · show ((List.range 12).map (fun j => pick_letter (rand (12 * k + j)))).length = 12
    simp
  · intro ch hch
    have hdata : (random_string rand k).data
        = (List.range 12).map (fun j => pick_letter (rand (12 * k + j))) := rfl
    rw [hdata] at hch
    simp only [List.mem_map] at hch
    obtain ⟨j, _, hj⟩ := hch
    rw [← hj]
    unfold pick_letter
    have hlt : rand (12 * k + j) % 52 < ascii_letters.length := by
      have : rand (12 * k + j) % 52 < 52 := Nat.mod_lt _ (by omega)
      have hlen : ascii_letters.length = 52 := rfl
      omega
    rw [List.getD_eq_getElem ascii_letters 'a' hlt]
    exact List.getElem_mem hlt

/-- C7 witness: invalid pattern rejected with no check; with an all-absent
broker the first candidate is returned for the pattern `reply!`. -/
theorem C7_new_channel_witness :
    (new_channel "c" (fun _ => 0) (fun _ => false) 1
      = ([], Except.error NewChannelError.InvalidPattern)) ∧
    (new_channel "reply!" (fun _ => 0) (fun _ => false) 1
      = (["reply!" ++ random_string (fun _ => 0) 0],
         Except.ok (some ("reply!" ++ random_string (fun _ => 0) 0)))) ∧
    (random_string (fun _ => 0) 0).length = 12 := by
  have h := C7_new_channel "reply!" (fun _ => 0) (fun _ => false) 1 0 (by decide)
    (by decide) (fun j hj => absurd hj (by omega)) rfl
  exact ⟨h.1 "c" (fun _ => 0) (fun _ => false) 1 (by decide), h.2.1, h.2.2.1⟩

end AsgiRabbitmq
